import Mathlib

/-!
Shallow embedding of the document store and analysis core of the
hsp3-analyzer-mini language server (ham-core), together with proofs about
the behaviour its specification describes.

The embedding follows the Rust sources:
  * ham-core/src/docs.rs                  (document store, watcher polling)
  * ham-core/src/analysis/comment.rs      (comment/documentation extraction)
  * ham-core/src/analysis/preproc.rs      (declaration analyzer)
  * ham-core/src/assists/completion.rs    (completion sort keys)

Rust HashMap/HashSet are modelled as association lists / insertion-ordered
lists; DocId/i64 become Nat/Int; filesystem and text-decoding effects are
supplied by an explicit environment record (FsEnv).
-/

/-- Result of Rust char::is_control (Unicode category Cc:
U+0000..U+001F and U+007F..U+009F). -/
def charIsControl (c : Char) : Bool :=
  decide (c.toNat < 0x20) || (decide (0x7F ≤ c.toNat) && decide (c.toNat ≤ 0x9F))

/-- Result of Rust char::is_whitespace (the Unicode White_Space property). -/
def charIsRustWhitespace (c : Char) : Bool :=
  let n := c.toNat
  (decide (0x9 ≤ n) && decide (n ≤ 0xD)) || decide (n = 0x20) || decide (n = 0x85) ||
  decide (n = 0xA0) || decide (n = 0x1680) ||
  (decide (0x2000 ≤ n) && decide (n ≤ 0x200A)) || decide (n = 0x2028) ||
  decide (n = 0x2029) || decide (n = 0x202F) || decide (n = 0x205F) || decide (n = 0x3000)

/-- Result of Rust char::is_ascii_punctuation
(U+0021..U+002F, U+003A..U+0040, U+005B..U+0060, U+007B..U+007E). -/
def charIsAsciiPunctuation (c : Char) : Bool :=
  let n := c.toNat
  (decide (0x21 ≤ n) && decide (n ≤ 0x2F)) || (decide (0x3A ≤ n) && decide (n ≤ 0x40)) ||
  (decide (0x5B ≤ n) && decide (n ≤ 0x60)) || (decide (0x7B ≤ n) && decide (n ≤ 0x7E))

/-- Rust str::trim (drop Unicode whitespace from both ends). -/
def rustTrim (s : String) : String :=
  ⟨((s.data.dropWhile charIsRustWhitespace).reverse.dropWhile charIsRustWhitespace).reverse⟩

/-- Rust str::trim_end (drop Unicode whitespace from the right end). -/
def rustTrimEnd (s : String) : String :=
  ⟨(s.data.reverse.dropWhile charIsRustWhitespace).reverse⟩

/-- Rust str::starts_with for a string pattern. -/
def strStartsWith (s pre : String) : Bool :=
  pre.data.isPrefixOf s.data

/-- Rust str::ends_with for a string pattern. -/
def strEndsWith (s suf : String) : Bool :=
  suf.data.isSuffixOf s.data

/-- RcStr::slice(l, r): the substring from index l (inclusive) to r (exclusive).
The byte indices used by the source coincide with character indices on the
ASCII delimiters it slices at. -/
def strSlice (s : String) (l r : Nat) : String :=
  ⟨(s.data.drop l).take (r - l)⟩

/-- Rust char::to_ascii_lowercase. -/
def charAsciiLower (c : Char) : Char :=
  if 0x41 ≤ c.toNat ∧ c.toNat ≤ 0x5A then Char.ofNat (c.toNat + 32) else c

/-- Rust str::to_ascii_lowercase. -/
def strAsciiLower (s : String) : String :=
  ⟨s.data.map charAsciiLower⟩

/-- Rust str::replace specialised to the two-character pattern of two
backslashes, replaced by one forward slash; non-overlapping, left to right,
exactly as str::replace scans. -/
def replaceBackslashPairAux : List Char → List Char
  | '\\' :: '\\' :: rest => '/' :: replaceBackslashPairAux rest
  | c :: rest => c :: replaceBackslashPairAux rest
  | [] => []

def replaceBackslashPair (s : String) : String :=
  ⟨replaceBackslashPairAux s.data⟩

/-- Association-list lookup, modelling HashMap::get. -/
def alookup {α β : Type} [DecidableEq α] : List (α × β) → α → Option β
  | [], _ => none
  | (k, v) :: rest, key => if key = k then some v else alookup rest key

/-- Association-list insert-or-replace, modelling HashMap::insert. -/
def ainsert {α β : Type} [DecidableEq α] : List (α × β) → α → β → List (α × β)
  | [], key, val => [(key, val)]
  | (k, v) :: rest, key, val =>
    if key = k then (key, val) :: rest else (k, v) :: ainsert rest key val

/-- Association-list removal, modelling HashMap::remove. -/
def aremove {α β : Type} [DecidableEq α] : List (α × β) → α → List (α × β)
  | [], _ => []
  | (k, v) :: rest, key => if key = k then rest else (k, v) :: aremove rest key

/-- Set membership, modelling HashSet::contains. -/
def smem {α : Type} [DecidableEq α] (l : List α) (x : α) : Bool :=
  l.contains x

/-- Set insertion (insertion order kept), modelling HashSet::insert. -/
def sinsert {α : Type} [DecidableEq α] (l : List α) (x : α) : List α :=
  if smem l x then l else l ++ [x]

/-- Set removal, modelling HashSet::remove. -/
def sremove {α : Type} [DecidableEq α] (l : List α) (x : α) : List α :=
  l.filter (fun y => y ≠ x)

/-- One document mutation event (docs.rs DocChange). -/
inductive DocChange : Type
  | Opened (doc : Nat) (text : String)
  | Changed (doc : Nat) (text : String)
  | Closed (doc : Nat)
deriving DecidableEq

/-- A debounced filesystem watcher event (the notify crate's DebouncedEvent
as consumed by docs.rs poll). `Other` stands for the variants the code skips
(NoticeWrite, NoticeRemove, Chmod, Error). -/
inductive DebouncedEvent : Type
  | Create (path : String)
  | Write (path : String)
  | Remove (path : String)
  | Rename (srcPath destPath : String)
  | Rescan
  | Other
deriving DecidableEq

/-- State of the watcher event channel: the events the next poll will drain,
and whether the channel then reports disconnection. -/
structure RxState : Type where
  events : List DebouncedEvent
  disconnected : Bool
deriving DecidableEq

/-- Explicit environment for the effects docs.rs performs: URI
canonicalization, path-to-URI conversion, file reads and text decoding, and
the project scan's file enumeration.

  canonResult uri  models uri.to_file_path().ok().and_then(canonicalize)
                   .and_then(Url::from_file_path...), i.e. the whole
                   fallible part of canonicalize_uri;
  fromFilePath p   models Url::from_file_path(p).ok();
  readBytes p      models fs::read(p).ok();
  sjisDecode b     models shift_jis.decode_to(b, Strict, out): the text
                   written to out and whether decoding succeeded;
  utf8Decode b     likewise for UTF8Encoding.decode_to;
  sjisAvailable    models encoding_from_windows_code_page(932).is_some();
  scanEntries      models the Ok entries of glob over current_dir/**/*.hsp
                   (none when current_dir or glob itself fails). -/
structure FsEnv : Type where
  canonResult : String → Option String
  fromFilePath : String → Option String
  readBytes : String → Option (List Nat)
  sjisDecode : List Nat → String × Bool
  utf8Decode : List Nat → String × Bool
  sjisAvailable : Bool
  scanEntries : Option (List String)

/-- docs.rs canonicalize_uri: canonicalize when possible, otherwise return
the input URI unchanged. -/
def canonicalizeUri (env : FsEnv) (uri : String) : String :=
  (env.canonResult uri).getD uri

/-- docs.rs NO_VERSION. -/
def noVersion : Int := 1

/-- The document store (docs.rs struct Docs). The watcher handle is kept as
a Bool (present or not); the event receiver as an optional RxState. -/
structure Docs : Type where
  lastDoc : Nat
  docToUri : List (Nat × String)
  uriToDoc : List (String × Nat)
  openDocs : List Nat
  docVersions : List (Nat × Int)
  fileWatcher : Bool
  fileEventRx : Option RxState
  docChanges : List DocChange
deriving DecidableEq

/-- Docs::default(). -/
def Docs.default : Docs :=
  ⟨0, [], [], [], [], false, none, []⟩

/-- Docs::fresh_doc. -/
def Docs.freshDoc (d : Docs) : Nat × Docs :=
  (d.lastDoc + 1, { d with lastDoc := d.lastDoc + 1 })

/-- Docs::resolve_uri. -/
def Docs.resolveUri (d : Docs) (uri : String) : Nat × Docs :=
  match alookup d.uriToDoc uri with
  | some doc => (doc, d)
  | none =>
    let (doc, d) := d.freshDoc
    (doc, { d with
      docToUri := ainsert d.docToUri doc uri,
      uriToDoc := ainsert d.uriToDoc uri doc })

/-- Docs::do_open_doc. -/
def Docs.doOpenDoc (d : Docs) (uri : String) (version : Int) (text : String) : Nat × Docs :=
  let (doc, d) := d.resolveUri uri
  (doc, { d with
    docVersions := ainsert d.docVersions doc version,
    docChanges := d.docChanges ++ [DocChange.Opened doc text] })

/-- Docs::do_change_doc. -/
def Docs.doChangeDoc (d : Docs) (uri : String) (version : Int) (text : String) : Docs :=
  let (doc, d) := d.resolveUri uri
  { d with
    docVersions := ainsert d.docVersions doc version,
    docChanges := d.docChanges ++ [DocChange.Changed doc text] }

/-- Docs::do_close_doc. -/
def Docs.doCloseDoc (d : Docs) (uri : String) : Docs :=
  let d :=
    match alookup d.uriToDoc uri with
    | some doc =>
      { d with
        docToUri := aremove d.docToUri doc,
        docChanges := d.docChanges ++ [DocChange.Closed doc] }
    | none => d
  { d with uriToDoc := aremove d.uriToDoc uri }

/-- read_file: fs::read, then shift_jis strict decoding, then UTF-8 strict
decoding appended to the same output buffer; returns the accumulated text
and the success flag. -/
def readFile (env : FsEnv) (path : String) : String × Bool :=
  match env.readBytes path with
  | none => ("", false)
  | some content =>
    let (s₁, ok₁) := env.sjisDecode content
    if ok₁ then (s₁, true)
    else
      let (s₂, ok₂) := env.utf8Decode content
      (s₁ ++ s₂, ok₂)

/-- Docs::change_file. A failed read only logs a warning; do_change_doc is
still invoked with whatever text was decoded. -/
def Docs.changeFile (env : FsEnv) (d : Docs) (path : String) : Docs :=
  if !env.sjisAvailable then d
  else
    match env.fromFilePath path with
    | none => d
    | some uri =>
      let uri := canonicalizeUri env uri
      let isOpen :=
        match alookup d.uriToDoc uri with
        | some doc => smem d.openDocs doc
        | none => false
      if isOpen then d
      else
        let (text, _ok) := readFile env path
        d.doChangeDoc uri noVersion text

/-- Docs::close_file. -/
def Docs.closeFile (env : FsEnv) (d : Docs) (path : String) : Docs :=
  match env.fromFilePath path with
  | none => d
  | some uri => d.doCloseDoc (canonicalizeUri env uri)

/-- Docs::scan_files (current_dir/glob failures yield no entries; each Ok
entry is loaded via change_file). -/
def Docs.scanFiles (env : FsEnv) (d : Docs) : Docs :=
  match env.scanEntries with
  | none => d
  | some entries => entries.foldl (fun d path => d.changeFile env path) d

/-- Split a character list at every occurrence of the separator. -/
def splitOnChar (sep : Char) : List Char → List (List Char)
  | [] => [[]]
  | c :: rest =>
    match splitOnChar sep rest with
    | [] => [[]]
    | grp :: grps => if c = sep then [] :: grp :: grps else (c :: grp) :: grps

/-- file_ext_is_watched, with std Path::extension: the part of the final
component after its last dot, absent when there is no dot or the name is a
bare dotfile. -/
def fileExt (path : String) : Option String :=
  let name := (splitOnChar '/' path.data).getLastD []
  match splitOnChar '.' name with
  | [] => none
  | [_] => none
  | [] :: [_] => none
  | parts => some ⟨parts.getLastD []⟩

def fileExtIsWatched (path : String) : Bool :=
  match fileExt path with
  | some ext => ext = "hsp" || ext = "as"
  | none => false

/-- The event-draining loop of Docs::poll: classify the batch into a rescan
flag and insertion-ordered sets of updated and removed paths. -/
def classifyEvents (events : List DebouncedEvent) : Bool × List String × List String :=
  events.foldl
    (fun acc ev =>
      let (rescan, updated, removed) := acc
      match ev with
      | DebouncedEvent.Create path =>
        if fileExtIsWatched path then (rescan, sinsert updated path, removed) else acc
      | DebouncedEvent.Write path =>
        if fileExtIsWatched path then (rescan, sinsert updated path, removed) else acc
      | DebouncedEvent.Remove path =>
        if fileExtIsWatched path then (rescan, updated, sinsert removed path) else acc
      | DebouncedEvent.Rename srcPath destPath =>
        let removed := if fileExtIsWatched srcPath then sinsert removed srcPath else removed
        let updated := if fileExtIsWatched destPath then sinsert updated destPath else updated
        (rescan, updated, removed)
      | DebouncedEvent.Rescan => (true, updated, removed)
      | DebouncedEvent.Other => acc)
    (false, [], [])

/-- Docs::shutdown_file_watcher. -/
def Docs.shutdownFileWatcher (d : Docs) : Docs :=
  { d with fileWatcher := false, fileEventRx := none }

/-- Docs::poll: drain the watcher channel; on rescan re-scan everything,
otherwise load every updated path that was not also removed and close every
removed path; shut the watcher down if the channel disconnected. -/
def Docs.poll (env : FsEnv) (d : Docs) : Docs :=
  match d.fileEventRx with
  | none => d
  | some rx =>
    let (rescan, updated, removed) := classifyEvents rx.events
    let d := { d with fileEventRx := some ⟨[], rx.disconnected⟩ }
    let d :=
      if rescan then d.scanFiles env
      else
        let d :=
          (updated.filter (fun path => !smem removed path)).foldl
            (fun d path => d.changeFile env path) d
        removed.foldl (fun d path => d.closeFile env path) d
    if rx.disconnected then d.shutdownFileWatcher else d

/-- Docs::open_doc. -/
def Docs.openDoc (env : FsEnv) (d : Docs) (uri : String) (version : Int) (text : String) : Docs :=
  let uri := canonicalizeUri env uri
  let (_, d) := d.doOpenDoc uri version text
  let d :=
    match alookup d.uriToDoc uri with
    | some doc => { d with openDocs := sinsert d.openDocs doc }
    | none => d
  d.poll env

/-- Docs::change_doc. -/
def Docs.changeDoc (env : FsEnv) (d : Docs) (uri : String) (version : Int) (text : String) : Docs :=
  let uri := canonicalizeUri env uri
  let d := d.doChangeDoc uri version text
  d.poll env

/-- Docs::close_doc: canonicalize, clear the open marker, poll. (It does not
call do_close_doc.) -/
def Docs.closeDoc (env : FsEnv) (d : Docs) (uri : String) : Docs :=
  let uri := canonicalizeUri env uri
  let d :=
    match alookup d.uriToDoc uri with
    | some doc => { d with openDocs := sremove d.openDocs doc }
    | none => d
  d.poll env

/-!
Comment/documentation extraction (analysis/comment.rs). RcStr becomes
String; the trivia-collection entry point is not needed by the claims.
-/

/-- comment.rs char_is_ornament_comment. -/
def charIsOrnamentComment (c : Char) : Bool :=
  charIsControl c || charIsRustWhitespace c || charIsAsciiPunctuation c

/-- comment.rs str_is_ornament_comment: decorative comments (lines of
dashes and the like) and blank lines. -/
def strIsOrnamentComment (s : String) : Bool :=
  s.data.all charIsOrnamentComment

/-- comment.rs trim_comment_leader: strip the first matching comment
marker from the line. -/
def trimCommentLeader (s : String) : String :=
  if strStartsWith s "/// " then strSlice s 4 s.length
  else if strStartsWith s "///" then strSlice s 3 s.length
  else if strStartsWith s "// " then strSlice s 3 s.length
  else if strStartsWith s "//" then strSlice s 2 s.length
  else if strStartsWith s "; " then strSlice s 2 s.length
  else if strStartsWith s ";" then strSlice s 1 s.length
  else s

/-- comment.rs ASymbolDetails. -/
structure ASymbolDetails : Type where
  desc : Option String
  docs : List String
deriving DecidableEq

/-- The first loop of calculate_details: skip ornament lines, take the
first substantive line as the description; returns the description and the
number of lines consumed (the source's y counter). -/
def calcDescLoop : List String → Nat → Option String × Nat
  | [], y => (none, y)
  | comment :: rest, y =>
    if strIsOrnamentComment (rustTrim comment) then calcDescLoop rest (y + 1)
    else (some (trimCommentLeader comment), y + 1)

/-- The second loop of calculate_details: advance y past the ornament lines
immediately following the description. -/
def skipOrnamentLoop : List String → Nat → Nat
  | [], y => y
  | line :: rest, y =>
    if strIsOrnamentComment (rustTrim line) then skipOrnamentLoop rest (y + 1)
    else y

/-- comment.rs calculate_details. -/
def calculateDetails (comments : List String) : ASymbolDetails :=
  let (description, y) := calcDescLoop comments 0
  let y := skipOrnamentLoop (comments.drop y) y
  let documentation :=
    if y < comments.length then
      (comments.drop y).map (fun comment => rustTrimEnd (trimCommentLeader comment))
    else []
  ⟨description, documentation⟩

/-!
Preprocessor/declaration analyzer (analysis/preproc.rs). The parse-tree
types carry exactly the fields on_stmt consumes; payloads of statements
with no declarative effect are elided. The identity types AModule/ADefFunc
and the name resolver live in source files that were not provided
(a_scope.rs, name_system.rs) and are modelled from the spec where noted.
-/

/-- Token kinds, as far as the analyzer inspects them (TokenKind::Str
distinguishes string literals in include directives). -/
inductive TokenKind : Type
  | Str
  | Ident
  | Number
  | Comment
  | Other
deriving DecidableEq

/-- A source location: document plus half-open span. (The field for the
span's end is named stop because end is reserved in Lean.) -/
structure Loc : Type where
  doc : Nat
  start : Nat
  stop : Nat
deriving DecidableEq

/-- Modelled from the spec: Loc::unite (source/loc.rs is not among the
provided files) — the smallest span covering both locations, in the first
location's document. -/
def Loc.unite (a b : Loc) : Loc :=
  ⟨a.doc, min a.start b.start, max a.stop b.stop⟩

/-- A parser token: its kind, text and location, plus the location behind
it (PToken::behind()). The trivia lists of the real PToken are elided; the
analyzer accesses only body.kind, body.text, body.loc and behind(). -/
structure PToken : Type where
  kind : TokenKind
  text : String
  loc : Loc
  behindLoc : Loc
deriving DecidableEq

/-- PPrivacy: an explicit global/local modifier on a declaration. -/
inductive PPrivacy : Type
  | Global
  | Local
deriving DecidableEq

/-- Modelled from the spec: PParamTy (the parser's parameter-type tag, not
among the provided files). The analyzer consults only whether the tag takes
an argument, and uses the Modvar tag for the synthetic module-instance
parameter. -/
inductive PParamTy : Type
  | Modvar
  | ArgTaking
  | NonArgTaking
deriving DecidableEq

/-- Modelled from the spec: PParamTy::take_arg — whether a parameter with
this tag contributes an argument slot to the signature. -/
def PParamTy.takeArg : PParamTy → Bool
  | PParamTy.Modvar => true
  | PParamTy.ArgTaking => true
  | PParamTy.NonArgTaking => false

/-- A parameter of a deffunc-like statement or a module field: optional
type tag (with its token) and optional name token. -/
structure PParam : Type where
  paramTyOpt : Option (PParamTy × PToken)
  nameOpt : Option PToken
deriving DecidableEq

/-- PDefFuncKind. -/
inductive PDefFuncKind : Type
  | DefFunc
  | DefCFunc
  | ModInit
  | ModTerm
  | ModFunc
  | ModCFunc
deriving DecidableEq

/-- PLabel (fields used by on_stmt). -/
structure PLabel : Type where
  star : PToken
  nameOpt : Option PToken
deriving DecidableEq

/-- PConstStmt (fields used by on_stmt). -/
structure PConstStmt : Type where
  hash : PToken
  privacyOpt : Option (PPrivacy × PToken)
  nameOpt : Option PToken
deriving DecidableEq

/-- PDefineStmt (fields used by on_stmt). -/
structure PDefineStmt : Type where
  hash : PToken
  privacyOpt : Option (PPrivacy × PToken)
  ctypeOpt : Option PToken
  nameOpt : Option PToken
deriving DecidableEq

/-- PEnumStmt (fields used by on_stmt). -/
structure PEnumStmt : Type where
  hash : PToken
  privacyOpt : Option (PPrivacy × PToken)
  nameOpt : Option PToken
deriving DecidableEq

/-- PLibFuncStmt (fields used by on_stmt and the signature builder). -/
structure PLibFuncStmt : Type where
  hash : PToken
  privacyOpt : Option (PPrivacy × PToken)
  nameOpt : Option PToken
  onexitOpt : Option PToken
  params : List PParam
deriving DecidableEq

/-- PUseComStmt (fields used by on_stmt). -/
structure PUseComStmt : Type where
  hash : PToken
  privacyOpt : Option (PPrivacy × PToken)
  nameOpt : Option PToken
deriving DecidableEq

/-- PComFuncStmt (fields used by on_stmt). -/
structure PComFuncStmt : Type where
  hash : PToken
  privacyOpt : Option (PPrivacy × PToken)
  nameOpt : Option PToken
deriving DecidableEq

/-- PCmdStmt (fields used by on_stmt). -/
structure PCmdStmt : Type where
  hash : PToken
  privacyOpt : Option (PPrivacy × PToken)
  nameOpt : Option PToken
deriving DecidableEq

/-- PIncludeStmt (fields used by on_stmt). -/
structure PIncludeStmt : Type where
  hash : PToken
  filePathOpt : Option PToken
deriving DecidableEq

/-- The statement tree (parse/*.rs PStmt). DefFunc and Module carry their
fields inline because they nest further statements. -/
inductive PStmt : Type
  | Label (stmt : PLabel)
  | Assign
  | Command
  | Invoke
  | Const (stmt : PConstStmt)
  | Define (stmt : PDefineStmt)
  | Enum (stmt : PEnumStmt)
  | DefFunc (hash : PToken) (kind : PDefFuncKind)
      (privacyOpt : Option (PPrivacy × PToken)) (nameOpt : Option PToken)
      (onexitOpt : Option PToken) (params : List PParam)
      (stmts : List PStmt) (behind : Loc)
  | UseLib
  | LibFunc (stmt : PLibFuncStmt)
  | UseCom (stmt : PUseComStmt)
  | ComFunc (stmt : PComFuncStmt)
  | RegCmd
  | Cmd (stmt : PCmdStmt)
  | Module (hash : PToken) (keyword : PToken) (nameOpt : Option PToken)
      (fields : List PParam) (stmts : List PStmt) (behind : Loc)
  | Global
  | Include (stmt : PIncludeStmt)
  | UnknownPreProc

/-- Modelled from the spec: AModule (a_scope.rs is not among the provided
files) — the identity of one module block: document id plus per-document
sequence number (spec data-model row for ModuleId). -/
structure AModule : Type where
  doc : Nat
  index : Nat
deriving DecidableEq

/-- Modelled from the spec: AModule::new bumps the per-document module
counter and returns the identity of the new block. -/
def AModule.new (doc : Nat) (len : Nat) : AModule × Nat :=
  (⟨doc, len + 1⟩, len + 1)

/-- ADefFunc: identity of one function-like block, a per-document sequence
number (ADefFunc::new wraps the bumped counter). -/
def ADefFunc : Type := Nat

instance : DecidableEq ADefFunc := inferInstanceAs (DecidableEq Nat)

/-- ALocalScope: the enclosing module and deffunc at a point of the walk. -/
structure ALocalScope : Type where
  moduleOpt : Option AModule
  deffuncOpt : Option Nat
deriving DecidableEq

/-- AScope: a resolved scope — global, or local to an enclosing
module/deffunc pair. -/
inductive AScope : Type
  | Global
  | Local (scope : ALocalScope)
deriving DecidableEq

/-- ADefScope: the definition-scope request passed to the name resolver
(the outcome of the privacy policy, or Param for parameters). -/
inductive ADefScope : Type
  | Global
  | Local
  | Param
deriving DecidableEq

/-- ASymbolKind (a_symbol.rs, the variants preproc.rs constructs). -/
inductive ASymbolKind : Type
  | Label
  | Const
  | Macro (ctype : Bool)
  | Enum
  | DefFunc
  | DefCFunc
  | ModFunc
  | ModCFunc
  | LibFunc
  | ComInterface
  | ComFunc
  | PluginCmd
  | Module
  | Field
  | Param (tyOpt : Option PParamTy)
deriving DecidableEq

/-- NameScopeNsTriple: base name, resolved scope, namespace tag (the
namespace is the enclosing module identity). -/
structure NameScopeNsTriple : Type where
  basename : String
  scopeOpt : Option AScope
  nsOpt : Option AModule
deriving DecidableEq

/-- Modelled from the spec: resolve_name_scope_ns_for_def (name_system.rs
is not among the provided files). Per spec §4.3: the base name is the raw
text verbatim; Global requests resolve to the global scope with no
namespace tag; Local requests resolve to a scope local to the current
module/function nesting, with a namespace tag derived from the enclosing
module; Param requests resolve to the same local scope with no tag. -/
def resolveNameScopeNsForDef (basename : String) (d : ADefScope) (lscope : ALocalScope) :
    NameScopeNsTriple :=
  match d with
  | ADefScope.Global => ⟨basename, some AScope.Global, none⟩
  | ADefScope.Local => ⟨basename, some (AScope.Local lscope), lscope.moduleOpt⟩
  | ADefScope.Param => ⟨basename, some (AScope.Local lscope), none⟩

/-- ASignatureData. -/
structure ASignatureData : Type where
  name : String
  params : List (Option PParamTy × Option String × Option String)
deriving DecidableEq

/-- ASymbolData (a_symbol.rs, the fields preproc.rs fills; the Rc/RefCell
sharing is flattened into the record). -/
structure ASymbolData : Type where
  kind : ASymbolKind
  name : String
  leaderOpt : Option PToken
  scopeOpt : Option AScope
  nsOpt : Option AModule
  defSites : List Loc
  useSites : List Loc
  signatureOpt : Option ASignatureData
deriving DecidableEq

/-- AModuleData. -/
structure AModuleData : Type where
  keywordLoc : Loc
  contentLoc : Loc
deriving DecidableEq

/-- ADefFuncData. -/
structure ADefFuncData : Type where
  contentLoc : Loc
deriving DecidableEq

/-- preproc.rs struct Ctx. -/
structure Ctx : Type where
  doc : Nat
  symbols : List ASymbolData
  includes : List (String × Loc)
  scope : ALocalScope
  modules : List (AModule × AModuleData)
  deffuncs : List (Nat × ADefFuncData)
  moduleLen : Nat
  deffuncLen : Nat
deriving DecidableEq

/-- Ctx::default(). -/
def Ctx.default : Ctx :=
  ⟨0, [], [], ⟨none, none⟩, [], [], 0, 0⟩

/-- preproc.rs Ctx::privacy_scope_or_local: the default-local policy. -/
def Ctx.privacyScopeOrLocal (_ctx : Ctx) (privacyOpt : Option (PPrivacy × PToken)) : ADefScope :=
  match privacyOpt with
  | some (PPrivacy.Global, _) => ADefScope.Global
  | _ => ADefScope.Local

/-- preproc.rs Ctx::privacy_scope_or_global: the default-global policy. -/
def Ctx.privacyScopeOrGlobal (_ctx : Ctx) (privacyOpt : Option (PPrivacy × PToken)) : ADefScope :=
  match privacyOpt with
  | some (PPrivacy.Local, _) => ADefScope.Local
  | _ => ADefScope.Global

/-- preproc.rs add_symbol (free function): resolve the name, build the
symbol record with the name token's location as its first definition site,
append it to the symbol list and return it. -/
def addSymbolCore (kind : ASymbolKind) (leader : PToken) (name : PToken) (d : ADefScope)
    (lscope : ALocalScope) (symbols : List ASymbolData) : ASymbolData × List ASymbolData :=
  let triple := resolveNameScopeNsForDef name.text d lscope
  let symbol : ASymbolData :=
    { kind := kind
      name := triple.basename
      leaderOpt := some leader
      scopeOpt := triple.scopeOpt
      nsOpt := triple.nsOpt
      defSites := [name.loc]
      useSites := []
      signatureOpt := none }
  (symbol, symbols ++ [symbol])

/-- preproc.rs Ctx::add_symbol. -/
def Ctx.addSymbol (ctx : Ctx) (kind : ASymbolKind) (leader : PToken) (name : PToken)
    (d : ADefScope) : ASymbolData × Ctx :=
  let (symbol, symbols) := addSymbolCore kind leader name d ctx.scope ctx.symbols
  (symbol, { ctx with symbols := symbols })

/-- new_signature_data_for_lib_func. -/
def newSignatureDataForLibFunc (stmt : PLibFuncStmt) : Option ASignatureData :=
  match stmt.nameOpt with
  | none => none
  | some name =>
    let params := stmt.params.filterMap (fun param =>
      match param.paramTyOpt with
      | some (ty, _) =>
        if !ty.takeArg then none
        else some (some ty, param.nameOpt.map (fun n => n.text), (none : Option String))
      | none => some (none, param.nameOpt.map (fun n => n.text), none))
    some ⟨name.text, params⟩

/-- new_signature_data_for_deffunc. -/
def newSignatureDataForDefFunc (kind : PDefFuncKind) (nameOpt : Option PToken)
    (params : List PParam) : Option ASignatureData :=
  let takeModvarOpt : Option Bool :=
    match kind with
    | PDefFuncKind.DefFunc | PDefFuncKind.DefCFunc => some false
    | PDefFuncKind.ModFunc | PDefFuncKind.ModCFunc => some true
    | PDefFuncKind.ModInit | PDefFuncKind.ModTerm => none
  match takeModvarOpt, nameOpt with
  | none, _ => none
  | some _, none => none
  | some takeModvar, some name =>
    let leading : List (Option PParamTy × Option String × Option String) :=
      if takeModvar then [(some PParamTy.Modvar, some "thismod", none)] else []
    let rest := params.filterMap (fun param =>
      match param.paramTyOpt with
      | some (ty, _) =>
        if !ty.takeArg then none
        else some (some ty, param.nameOpt.map (fun n => n.text), (none : Option String))
      | none => some (none, param.nameOpt.map (fun n => n.text), none))
    some ⟨name.text, leading ++ rest⟩

/-- Replace the signature of the most recently added symbol (the source
mutates the Rc-shared record it just pushed). -/
def setSignatureOnLast (symbols : List ASymbolData) (sig : ASignatureData) :
    List ASymbolData :=
  match symbols.getLast? with
  | none => symbols
  | some last => symbols.dropLast ++ [{ last with signatureOpt := some sig }]

mutual

/-- preproc.rs on_stmt: emit the statement's symbols and recurse into
nested bodies, maintaining the walk context. -/
def onStmt (stmt : PStmt) (ctx : Ctx) : Ctx :=
  match stmt with
  | PStmt.Label l =>
    match l.nameOpt with
    | some name => (ctx.addSymbol ASymbolKind.Label l.star name ADefScope.Local).2
    | none => ctx
  | PStmt.Assign | PStmt.Command | PStmt.Invoke => ctx
  | PStmt.Const s =>
    match s.nameOpt with
    | some name =>
      let scope := ctx.privacyScopeOrLocal s.privacyOpt
      (ctx.addSymbol ASymbolKind.Const s.hash name scope).2
    | none => ctx
  | PStmt.Define s =>
    match s.nameOpt with
    | some name =>
      let scope := ctx.privacyScopeOrLocal s.privacyOpt
      let ctype := s.ctypeOpt.isSome
      (ctx.addSymbol (ASymbolKind.Macro ctype) s.hash name scope).2
    | none => ctx
  | PStmt.Enum s =>
    match s.nameOpt with
    | some name =>
      let scope := ctx.privacyScopeOrLocal s.privacyOpt
      (ctx.addSymbol ASymbolKind.Enum s.hash name scope).2
    | none => ctx
  | PStmt.DefFunc hash kind privacyOpt nameOpt onexitOpt params stmts behind =>
    let ctx := { ctx with deffuncLen := ctx.deffuncLen + 1 }
    let deffunc : Nat := ctx.deffuncLen
    let ctx := { ctx with
      deffuncs := ainsert ctx.deffuncs deffunc ⟨hash.loc.unite behind⟩ }
    let symbolKind :=
      match kind with
      | PDefFuncKind.DefFunc => ASymbolKind.DefFunc
      | PDefFuncKind.DefCFunc => ASymbolKind.DefCFunc
      | PDefFuncKind.ModInit | PDefFuncKind.ModTerm | PDefFuncKind.ModFunc =>
        ASymbolKind.ModFunc
      | PDefFuncKind.ModCFunc => ASymbolKind.ModCFunc
    let (emitted, ctx) :=
      match nameOpt with
      | some name =>
        if onexitOpt.isNone then
          let scope := ctx.privacyScopeOrGlobal privacyOpt
          let (_, ctx) := ctx.addSymbol symbolKind hash name scope
          (true, ctx)
        else (false, ctx)
      | none => (false, ctx)
    let ctx :=
      if emitted then
        match newSignatureDataForDefFunc kind nameOpt params with
        | some data => { ctx with symbols := setSignatureOnLast ctx.symbols data }
        | none => ctx
      else ctx
    let parentDeffunc := ctx.scope.deffuncOpt
    let ctx := { ctx with scope := { ctx.scope with deffuncOpt := some deffunc } }
    let ctx := params.foldl
      (fun ctx param =>
        match param.nameOpt with
        | some name =>
          let paramTy := param.paramTyOpt.map (fun p => p.1)
          (ctx.addSymbol (ASymbolKind.Param paramTy) hash name ADefScope.Param).2
        | none => ctx)
      ctx
    let ctx := onStmts stmts ctx
    { ctx with scope := { ctx.scope with deffuncOpt := parentDeffunc } }
  | PStmt.UseLib => ctx
  | PStmt.LibFunc s =>
    let (emitted, ctx) :=
      match s.nameOpt with
      | some name =>
        if s.onexitOpt.isNone then
          let scope := ctx.privacyScopeOrLocal s.privacyOpt
          let (_, ctx) := ctx.addSymbol ASymbolKind.LibFunc s.hash name scope
          (true, ctx)
        else (false, ctx)
      | none => (false, ctx)
    if emitted then
      match newSignatureDataForLibFunc s with
      | some data => { ctx with symbols := setSignatureOnLast ctx.symbols data }
      | none => ctx
    else ctx
  | PStmt.UseCom s =>
    match s.nameOpt with
    | some name =>
      let scope := ctx.privacyScopeOrLocal s.privacyOpt
      (ctx.addSymbol ASymbolKind.ComInterface s.hash name scope).2
    | none => ctx
  | PStmt.ComFunc s =>
    match s.nameOpt with
    | some name =>
      let scope := ctx.privacyScopeOrGlobal s.privacyOpt
      (ctx.addSymbol ASymbolKind.ComFunc s.hash name scope).2
    | none => ctx
  | PStmt.RegCmd => ctx
  | PStmt.Cmd s =>
    match s.nameOpt with
    | some name =>
      let scope := ctx.privacyScopeOrLocal s.privacyOpt
      (ctx.addSymbol ASymbolKind.PluginCmd s.hash name scope).2
    | none => ctx
  | PStmt.Module hash keyword nameOpt fields stmts behind =>
    let (module, moduleLen) := AModule.new ctx.doc ctx.moduleLen
    let ctx := { ctx with
      moduleLen := moduleLen,
      modules := ainsert ctx.modules module ⟨keyword.loc, hash.loc.unite behind⟩ }
    let parentScope := ctx.scope
    let ctx := { ctx with scope := ⟨some module, none⟩ }
    let ctx :=
      match nameOpt with
      | some name => (ctx.addSymbol ASymbolKind.Module hash name ADefScope.Global).2
      | none => ctx
    let ctx := fields.foldl
      (fun ctx field =>
        match field.nameOpt with
        | some name => (ctx.addSymbol ASymbolKind.Field name name ADefScope.Local).2
        | none => ctx)
      ctx
    let ctx := onStmts stmts ctx
    { ctx with scope := parentScope }
  | PStmt.Global => ctx
  | PStmt.Include s =>
    match s.filePathOpt with
    | some filePath =>
      if filePath.kind = TokenKind.Str then
        let text := filePath.text
        let l := if strStartsWith text "\"" then 1 else 0
        let r := text.length - (if strEndsWith text "\"" then 1 else 0)
        let text := strSlice text l r
        let text := strAsciiLower (replaceBackslashPair text)
        let loc := s.hash.loc.unite filePath.behindLoc
        { ctx with includes := ctx.includes ++ [(text, loc)] }
      else ctx
    | none => ctx
  | PStmt.UnknownPreProc => ctx

/-- The statement loops of on_stmt and analyze_preproc. -/
def onStmts (stmts : List PStmt) (ctx : Ctx) : Ctx :=
  match stmts with
  | [] => ctx
  | stmt :: rest => onStmts rest (onStmt stmt ctx)

end

/-- preproc.rs PreprocAnalysisResult. -/
structure PreprocAnalysisResult : Type where
  symbols : List ASymbolData
  includes : List (String × Loc)
  modules : List (AModule × AModuleData)
  deffuncs : List (Nat × ADefFuncData)
deriving DecidableEq

/-- preproc.rs analyze_preproc: walk a document's statements starting from
the default context (all counters at zero). -/
def analyzePreproc (doc : Nat) (root : List PStmt) : PreprocAnalysisResult :=
  let ctx := { Ctx.default with doc := doc }
  let ctx := onStmts root ctx
  ⟨ctx.symbols, ctx.includes, ctx.modules, ctx.deffuncs⟩

/-!
Completion sort keys (assists/completion.rs). The completion layer's symbol
kinds come from analysis/analyze.rs and differ from the analyzer's; they
are embedded in their own namespace.
-/

namespace Completion

/-- ASymbolKind as imported by completion.rs (analysis/analyze.rs). -/
inductive ASymbolKind : Type
  | Unresolved
  | Command
  | CommandOrFunc
  | CommandOrFuncOrVar
  | Const
  | Directory
  | Enum
  | Field
  | File
  | Func
  | Label
  | Module
  | Param
  | PreProc
  | StaticVar
  | Type
deriving DecidableEq

/-- The sort-prefix character computed in completion(): narrower scopes
come first; the match arms apply in source order, so the Local arm wins for
every kind, and only then are Module-kind symbols sent to the back. -/
def sortPrefixChar (scope : AScope) (kind : ASymbolKind) : Char :=
  match scope, kind with
  | AScope.Local lscope, _ =>
    match lscope.moduleOpt, lscope.deffuncOpt with
    | some _, some _ => 'a'
    | some _, none => 'b'
    | none, none => 'c'
    | none, some _ => 'd'
  | _, ASymbolKind.Module => 'f'
  | AScope.Global, _ => 'e'

/-- The sort_text of a completion item: format!("{}{}", sort_prefix, name). -/
def sortText (scope : AScope) (kind : ASymbolKind) (name : String) : String :=
  String.singleton (sortPrefixChar scope kind) ++ name

end Completion

/-!
Concrete inputs used by the counterexamples and witnesses, and the derived
notions the theorems quantify over.
-/

/-- The scopes of the symbols a statement appends to the context, in
order: the analyzer's output for one statement, restricted to the freshly
added symbols. -/
def newSymbolScopes (stmt : PStmt) (ctx : Ctx) : List (Option AScope) :=
  ((onStmt stmt ctx).symbols.drop ctx.symbols.length).map ASymbolData.scopeOpt

/-- Invariant of the analyzer walk: the deffunc registry's keys are exactly
the counter values 1..deffuncLen allocated so far, and the module
registry's keys are exactly the identities (doc, 1)..(doc, moduleLen). -/
def CtxIdInv (ctx : Ctx) : Prop :=
  ctx.deffuncs.map Prod.fst = List.range' 1 ctx.deffuncLen ∧
  ctx.modules.map Prod.fst =
    (List.range' 1 ctx.moduleLen).map (fun i => AModule.mk ctx.doc i)

/-- An environment in which nothing on disk is reachable: URI
canonicalization and path conversion fail, reads fail. -/
def envNone : FsEnv :=
  ⟨fun _ => none, fun _ => none, fun _ => none, fun _ => ("", false),
   fun _ => ("", false), true, none⟩

/-- A store holding one document, loaded and currently open in the editor,
with no active watcher and an empty change queue. -/
def c1Store : Docs :=
  ⟨1, [(1, "file:///a.hsp")], [("file:///a.hsp", 1)], [1], [(1, 1)], false, none, []⟩

/-- An environment whose one file exists but decodes under neither
shift_jis nor UTF-8 (both decoders fail having written nothing). -/
def c2Env : FsEnv :=
  ⟨fun _ => none, fun p => some ("file://" ++ p), fun _ => some [0xFF],
   fun _ => ("", false), fun _ => ("", false), true, none⟩

/-- An environment for the witness of the amended decoding claim: the
bytes of one file fail both decoders, the bytes of another decode as
shift_jis. -/
def c2WitnessEnv : FsEnv :=
  ⟨fun _ => none, fun p => some ("file://" ++ p),
   fun p => if p = "/b.hsp" then some [0x41] else some [0xFF],
   fun b => if b = [0x41] then ("A", true) else ("", false),
   fun _ => ("", false), true, none⟩

/-- An environment whose files all read and decode as the text A. -/
def c3Env : FsEnv :=
  ⟨fun _ => none, fun p => some ("file://" ++ p), fun _ => some [0x41],
   fun _ => ("A", true), fun _ => ("", false), true, none⟩

/-- A store with one loaded (not open) document whose watcher reports a
removal followed by a recreation of the same path in one batch. -/
def c3StoreRemoveCreate : Docs :=
  ⟨1, [(1, "file:///a.hsp")], [("file:///a.hsp", 1)], [], [(1, 1)], true,
   some ⟨[DebouncedEvent.Remove "/a.hsp", DebouncedEvent.Create "/a.hsp"], false⟩, []⟩

/-- The same store when the watcher instead reports three rapid writes to
the same path in one batch. -/
def c3StoreWrites : Docs :=
  ⟨1, [(1, "file:///a.hsp")], [("file:///a.hsp", 1)], [], [(1, 1)], true,
   some ⟨[DebouncedEvent.Write "/a.hsp", DebouncedEvent.Write "/a.hsp",
          DebouncedEvent.Write "/a.hsp"], false⟩, []⟩

/-- A store with one loaded document open in the editor and a watcher
batch reporting a write to its path. -/
def c8Store : Docs :=
  ⟨1, [(1, "file:///a.hsp")], [("file:///a.hsp", 1)], [1], [(1, 5)], true,
   some ⟨[DebouncedEvent.Write "/a.hsp"], false⟩, []⟩

/-- An environment for c8Store: the file exists on disk and decodes, and
the project scan enumerates exactly it. -/
def c8Env : FsEnv :=
  ⟨fun _ => none, fun p => some ("file://" ++ p), fun _ => some [0x41],
   fun _ => ("A", true), fun _ => ("", false), true, some ["/a.hsp"]⟩

/-- An environment in which two spellings canonicalize to the same path
and everything else fails to canonicalize. -/
def c10Env : FsEnv :=
  ⟨fun u => if u = "file:///x" ∨ u = "file:///X" then some "file:///canon" else none,
   fun _ => none, fun _ => none, fun _ => ("", false), fun _ => ("", false),
   true, none⟩

/-- A sample token. -/
def sampleTok (kind : TokenKind) (text : String) : PToken :=
  ⟨kind, text, ⟨1, 0, 1⟩, ⟨1, 1, 2⟩⟩

/-- A deffunc declaration of a function named f, used as the body of the
first analysis generation. -/
def deffuncStmtF : PStmt :=
  PStmt.DefFunc (sampleTok TokenKind.Other "#") PDefFuncKind.DefFunc none
    (some (sampleTok TokenKind.Ident "f")) none [] [] ⟨1, 0, 10⟩

/-- The same document after a textual edit: the function is renamed to g. -/
def deffuncStmtG : PStmt :=
  PStmt.DefFunc (sampleTok TokenKind.Other "#") PDefFuncKind.DefFunc none
    (some (sampleTok TokenKind.Ident "g")) none [] [] ⟨1, 0, 10⟩

/-- A module block named m with no members. -/
def moduleStmtM : PStmt :=
  PStmt.Module (sampleTok TokenKind.Other "#") (sampleTok TokenKind.Ident "module")
    (some (sampleTok TokenKind.Ident "m")) [] [] ⟨1, 0, 20⟩

/-- The hash token of a concrete include directive. -/
def includeHashTok : PToken :=
  ⟨TokenKind.Other, "#", ⟨1, 0, 1⟩, ⟨1, 1, 2⟩⟩

/-- The string-literal token of the concrete include directive
(the source text between the quotes reads Sub backslash backslash Lib.hsp). -/
def includePathTok : PToken :=
  ⟨TokenKind.Str, "\"Sub\\\\Lib.hsp\"", ⟨1, 9, 23⟩, ⟨1, 23, 24⟩⟩

/-!
Theorems for the claims, in claim order.
-/

/-- C5 (counterexample): on the comment block from the claim, extraction
does not return description Computes X. with documentation preserving only
the blank line and Returns Y. — the leading line "---- header ----"
contains the letters of the word header, so str_is_ornament_comment is
false on it and it becomes the description itself. -/
theorem c5_counterexample :
    calculateDetails ["---- header ----", "Computes X.", "", "Returns Y."] ≠
      ⟨some "Computes X.", ["", "Returns Y."]⟩ := by
  decide

/-- C5 (amended): for the comment block ["---- header ----", "Computes X.",
"", "Returns Y."], calculate_details returns description "---- header ----"
(the line is not purely decorative, since it contains alphabetic
characters, so it is taken as the first substantive line) and
documentation ["Computes X.", "", "Returns Y."] (the blank line is
preserved in the body). -/
theorem c5_amended :
    calculateDetails ["---- header ----", "Computes X.", "", "Returns Y."] =
      ⟨some "---- header ----", ["Computes X.", "", "Returns Y."]⟩ := by
  decide

/-- C9: for an include directive whose argument is a string literal, the
analyzer records exactly one include edge whose path is the literal with
surrounding quotes stripped, each two-character backslash-backslash
sequence replaced by a forward slash, and the result ASCII-lowercased
(concretely, the directive on the quoted literal Sub backslash backslash
Lib.hsp records sub/lib.hsp), with a location spanning from the hash
token's start to the end of the path token; an absent or non-string
argument records nothing and raises no error. -/
theorem c9_include_edge (ctx : Ctx) (hash filePath tok₂ : PToken)
    (hStr : filePath.kind = TokenKind.Str)
    (hNotStr : tok₂.kind ≠ TokenKind.Str)
    (hStart : hash.loc.start ≤ filePath.behindLoc.start)
    (hStop : hash.loc.stop ≤ filePath.behindLoc.stop) :
    onStmt (PStmt.Include ⟨hash, some filePath⟩) ctx =
      { ctx with includes := ctx.includes ++
          [(strAsciiLower (replaceBackslashPair (strSlice filePath.text
              (if strStartsWith filePath.text "\"" then 1 else 0)
              (filePath.text.length - (if strEndsWith filePath.text "\"" then 1 else 0)))),
            ⟨hash.loc.doc, hash.loc.start, filePath.behindLoc.stop⟩)] } ∧
    onStmt (PStmt.Include ⟨includeHashTok, some includePathTok⟩) Ctx.default =
      { Ctx.default with includes := [("sub/lib.hsp", ⟨1, 0, 24⟩)] } ∧
    onStmt (PStmt.Include ⟨hash, some tok₂⟩) ctx = ctx ∧
    onStmt (PStmt.Include ⟨hash, none⟩) ctx = ctx := by
  refine ⟨?_, by decide, ?_, ?_⟩
  · simp [onStmt, hStr, Loc.unite, Nat.min_eq_left hStart, Nat.max_eq_right hStop]
  · simp [onStmt, hNotStr]
  · simp [onStmt]

/-- Witness for c9_include_edge at the concrete include directive. -/
theorem c9_include_edge_witness :
    includePathTok.kind = TokenKind.Str ∧
    onStmt (PStmt.Include ⟨includeHashTok, some includePathTok⟩) Ctx.default =
      { Ctx.default with includes := [("sub/lib.hsp", ⟨1, 0, 24⟩)] } :=
  ⟨rfl,
    (c9_include_edge Ctx.default includeHashTok includePathTok
      (sampleTok TokenKind.Ident "x") rfl (by decide) (by decide) (by decide)).2.1⟩

/-- C6: with no explicit privacy modifier, constants, macros, enums,
library-function bindings, COM interfaces and plugin commands resolve to
the Local definition scope (tied to the context at the declaration) while
deffunc declarations and COM functions resolve Global; an explicit
opposite-of-default modifier flips the resolution (explicit global
constant resolves Global, explicit local function resolves Local). -/
theorem c6_privacy_resolution (ctx : Ctx) (h n pt : PToken) :
    newSymbolScopes (PStmt.Const ⟨h, none, some n⟩) ctx = [some (AScope.Local ctx.scope)] ∧
    newSymbolScopes (PStmt.Define ⟨h, none, none, some n⟩) ctx =
      [some (AScope.Local ctx.scope)] ∧
    newSymbolScopes (PStmt.Enum ⟨h, none, some n⟩) ctx = [some (AScope.Local ctx.scope)] ∧
    newSymbolScopes (PStmt.LibFunc ⟨h, none, some n, none, []⟩) ctx =
      [some (AScope.Local ctx.scope)] ∧
    newSymbolScopes (PStmt.UseCom ⟨h, none, some n⟩) ctx = [some (AScope.Local ctx.scope)] ∧
    newSymbolScopes (PStmt.Cmd ⟨h, none, some n⟩) ctx = [some (AScope.Local ctx.scope)] ∧
    newSymbolScopes (PStmt.DefFunc h PDefFuncKind.DefFunc none (some n) none [] [] ⟨1, 0, 9⟩)
      ctx = [some AScope.Global] ∧
    newSymbolScopes (PStmt.ComFunc ⟨h, none, some n⟩) ctx = [some AScope.Global] ∧
    newSymbolScopes (PStmt.Const ⟨h, some (PPrivacy.Global, pt), some n⟩) ctx =
      [some AScope.Global] ∧
    newSymbolScopes (PStmt.DefFunc h PDefFuncKind.DefFunc (some (PPrivacy.Local, pt))
      (some n) none [] [] ⟨1, 0, 9⟩) ctx = [some (AScope.Local ctx.scope)] := by
  refine ⟨?_, ?_, ?_, ?_, ?_, ?_, ?_, ?_, ?_, ?_⟩ <;>
    simp [newSymbolScopes, onStmt, Ctx.addSymbol, addSymbolCore,
      Ctx.privacyScopeOrLocal, Ctx.privacyScopeOrGlobal, resolveNameScopeNsForDef,
      onStmts, setSignatureOnLast, newSignatureDataForDefFunc,
      newSignatureDataForLibFunc, List.drop_left]

/-- Sort keys with a strictly smaller prefix character compare strictly
smaller regardless of the symbol names, because string comparison is
lexicographic and the prefix is the first character. -/
theorem sortText_lt_of_prefix_lt (s₁ s₂ : AScope) (k₁ k₂ : Completion.ASymbolKind)
    (n₁ n₂ : String)
    (h : Completion.sortPrefixChar s₁ k₁ < Completion.sortPrefixChar s₂ k₂) :
    Completion.sortText s₁ k₁ n₁ < Completion.sortText s₂ k₂ n₂ := by
  rw [String.lt_iff_toList_lt]
  have e₁ : (Completion.sortText s₁ k₁ n₁).toList =
      Completion.sortPrefixChar s₁ k₁ :: n₁.data := rfl
  have e₂ : (Completion.sortText s₂ k₂ n₂).toList =
      Completion.sortPrefixChar s₂ k₂ :: n₂.data := rfl
  rw [e₁, e₂]
  exact List.Lex.rel h

/-- Global symbols of every kind other than Module get the prefix e. -/
theorem sortPrefixChar_global_of_ne_module (k : Completion.ASymbolKind)
    (h : k ≠ Completion.ASymbolKind.Module) :
    Completion.sortPrefixChar AScope.Global k = 'e' := by
  cases k <;> simp_all [Completion.sortPrefixChar]

/-- C7: each completion candidate's sort key is the one-character sort
prefix consed onto the symbol's base name, and for a position inside both
a module and a function the keys order candidates as: local to module and
function, then module-only-local, then file-local, then
function-only-local, then Global, then Module-kind symbols, whatever the
base names are. -/
theorem c7_sort_order (m : AModule) (f : Nat) (k₁ k₂ k₃ k₄ k₅ : Completion.ASymbolKind)
    (n₁ n₂ n₃ n₄ n₅ n₆ : String) (h₅ : k₅ ≠ Completion.ASymbolKind.Module) :
    (Completion.sortText (AScope.Local ⟨some m, some f⟩) k₁ n₁).data =
      Completion.sortPrefixChar (AScope.Local ⟨some m, some f⟩) k₁ :: n₁.data ∧
    Completion.sortText (AScope.Local ⟨some m, some f⟩) k₁ n₁ <
      Completion.sortText (AScope.Local ⟨some m, none⟩) k₂ n₂ ∧
    Completion.sortText (AScope.Local ⟨some m, none⟩) k₂ n₂ <
      Completion.sortText (AScope.Local ⟨none, none⟩) k₃ n₃ ∧
    Completion.sortText (AScope.Local ⟨none, none⟩) k₃ n₃ <
      Completion.sortText (AScope.Local ⟨none, some f⟩) k₄ n₄ ∧
    Completion.sortText (AScope.Local ⟨none, some f⟩) k₄ n₄ <
      Completion.sortText AScope.Global k₅ n₅ ∧
    Completion.sortText AScope.Global k₅ n₅ <
      Completion.sortText AScope.Global Completion.ASymbolKind.Module n₆ := by
  refine ⟨rfl, ?_, ?_, ?_, ?_, ?_⟩ <;>
    apply sortText_lt_of_prefix_lt <;>
    simp [Completion.sortPrefixChar, sortPrefixChar_global_of_ne_module k₅ h₅]

/-- Witness for c7_sort_order at concrete kinds and names. -/
theorem c7_sort_order_witness :
    Completion.ASymbolKind.Const ≠ Completion.ASymbolKind.Module ∧
    Completion.sortText (AScope.Local ⟨some ⟨1, 1⟩, some 1⟩) Completion.ASymbolKind.StaticVar
        "zz" <
      Completion.sortText (AScope.Local ⟨some ⟨1, 1⟩, none⟩) Completion.ASymbolKind.StaticVar
        "aa" :=
  ⟨by decide,
    (c7_sort_order ⟨1, 1⟩ 1 Completion.ASymbolKind.StaticVar Completion.ASymbolKind.StaticVar
      Completion.ASymbolKind.StaticVar Completion.ASymbolKind.StaticVar
      Completion.ASymbolKind.Const "zz" "aa" "x" "x" "x" "x" (by decide)).2.1⟩

/-- C1 (counterexample): opening a document and then closing it leaves the
pending change queue with only the Opened event — close_doc clears the
open marker but never appends a Closed DocChange (it does not call
do_close_doc). -/
theorem c1_counterexample :
    (Docs.closeDoc envNone
        (Docs.openDoc envNone Docs.default "file:///a.hsp" 1 "x")
        "file:///a.hsp").docChanges = [DocChange.Opened 1 "x"] ∧
    DocChange.Closed 1 ∉
      (Docs.closeDoc envNone
        (Docs.openDoc envNone Docs.default "file:///a.hsp" 1 "x")
        "file:///a.hsp").docChanges ∧
    (Docs.closeDoc envNone
        (Docs.openDoc envNone Docs.default "file:///a.hsp" 1 "x")
        "file:///a.hsp").openDocs = [] := by
  refine ⟨by decide, by decide, by decide⟩

/-- C1 (amended): close_doc normalizes the URI and clears the document's
open marker, but appends no DocChange and records nothing else: the change
queue, the URI table and the version table are untouched (shown here for a
store with no active watcher, so that the trailing poll is a no-op). -/
theorem c1_amended (env : FsEnv) (d : Docs) (uri : String)
    (hRx : d.fileEventRx = none) :
    (d.closeDoc env uri).docChanges = d.docChanges ∧
    (d.closeDoc env uri).uriToDoc = d.uriToDoc ∧
    (d.closeDoc env uri).docVersions = d.docVersions ∧
    (d.closeDoc env uri).openDocs =
      (match alookup d.uriToDoc (canonicalizeUri env uri) with
       | some doc => sremove d.openDocs doc
       | none => d.openDocs) := by
  cases hl : alookup d.uriToDoc (canonicalizeUri env uri) <;>
    simp [Docs.closeDoc, Docs.poll, hRx, hl]

/-- Witness for c1_amended on a store with one open document. -/
theorem c1_amended_witness :
    c1Store.fileEventRx = none ∧
    (c1Store.closeDoc envNone "file:///a.hsp").docChanges = c1Store.docChanges ∧
    (c1Store.closeDoc envNone "file:///a.hsp").openDocs = [] :=
  ⟨rfl,
    (c1_amended envNone c1Store "file:///a.hsp" rfl).1,
    by
      have h := (c1_amended envNone c1Store "file:///a.hsp" rfl).2.2.2
      simpa using h⟩

/-- C2 (counterexample): with a file whose bytes fail both the shift_jis
and the UTF-8 strict decodes, change_file does not skip the file: a
Changed DocChange carrying the (empty) decoded text is still enqueued and
a version is still recorded, so the store's tables and pending queue are
not left unchanged. -/
theorem c2_counterexample :
    (Docs.changeFile c2Env Docs.default "/a.hsp").docChanges = [DocChange.Changed 1 ""] ∧
    (Docs.changeFile c2Env Docs.default "/a.hsp").docChanges ≠ [] ∧
    (Docs.changeFile c2Env Docs.default "/a.hsp").docVersions = [(1, 1)] ∧
    readFile c2Env "/a.hsp" = ("", false) := by
  refine ⟨by decide, by decide, by decide, by decide⟩

/-- C2 (amended): disk bytes are decoded with the fixed legacy codepage
(Windows 932) first — when that succeeds UTF-8 is never consulted — and
with strict UTF-8 as the fallback; but when both decodes fail the file is
not skipped: a warning is logged and change_file still enqueues a Changed
DocChange carrying whatever text the failed decoders produced, recording
the NO_VERSION version for the document. -/
theorem c2_amended (env : FsEnv) (d : Docs) (path path₂ uri : String)
    (bs bs₂ : List Nat) (s₁ s₂ s₃ : String)
    (hS : env.sjisAvailable = true)
    (hFp : env.fromFilePath path = some uri)
    (hRead : env.readBytes path = some bs)
    (hSjis : env.sjisDecode bs = (s₁, false))
    (hUtf8 : env.utf8Decode bs = (s₂, false))
    (hNotOpen : (match alookup d.uriToDoc (canonicalizeUri env uri) with
                 | some doc => smem d.openDocs doc
                 | none => false) = false)
    (hRead₂ : env.readBytes path₂ = some bs₂)
    (hSjis₂ : env.sjisDecode bs₂ = (s₃, true)) :
    readFile env path₂ = (s₃, true) ∧
    readFile env path = (s₁ ++ s₂, false) ∧
    d.changeFile env path = d.doChangeDoc (canonicalizeUri env uri) noVersion (s₁ ++ s₂) ∧
    (d.changeFile env path).docChanges =
      d.docChanges ++
        [DocChange.Changed (d.resolveUri (canonicalizeUri env uri)).1 (s₁ ++ s₂)] := by
  have hr₂ : readFile env path₂ = (s₃, true) := by
    simp [readFile, hRead₂, hSjis₂]
  have hr : readFile env path = (s₁ ++ s₂, false) := by
    simp [readFile, hRead, hSjis, hUtf8]
  have hcf : d.changeFile env path =
      d.doChangeDoc (canonicalizeUri env uri) noVersion (s₁ ++ s₂) := by
    simp [Docs.changeFile, hS, hFp, hNotOpen, hr]
  refine ⟨hr₂, hr, hcf, ?_⟩
  rw [hcf]
  cases hfind : alookup d.uriToDoc (canonicalizeUri env uri) <;>
    simp [Docs.doChangeDoc, Docs.resolveUri, Docs.freshDoc, hfind]

/-- Witness for c2_amended: one file that fails both decodes, one file
that decodes as shift_jis. -/
theorem c2_amended_witness :
    c2WitnessEnv.sjisAvailable = true ∧
    readFile c2WitnessEnv "/b.hsp" = ("A", true) ∧
    readFile c2WitnessEnv "/a.hsp" = ("" ++ "", false) :=
  ⟨rfl,
    (c2_amended c2WitnessEnv Docs.default "/a.hsp" "/b.hsp" "file:///a.hsp"
      [0xFF] [0x41] "" "" "A" rfl rfl (by decide) (by decide) (by decide)
      (by decide) (by decide) (by decide)).1,
    (c2_amended c2WitnessEnv Docs.default "/a.hsp" "/b.hsp" "file:///a.hsp"
      [0xFF] [0x41] "" "" "A" rfl rfl (by decide) (by decide) (by decide)
      (by decide) (by decide) (by decide)).2.1⟩

/-- C8: a document currently marked open in the editor is shielded from
disk-driven loads: change_file on its path returns the store unchanged (no
version change, no DocChange), and the same holds when the load is driven
by a project scan enumerating that path or by a watcher batch reporting a
write to it (polling only drains the event channel). -/
theorem c8_open_shielded (env : FsEnv) (d : Docs) (path uri : String) (doc : Nat)
    (hFp : env.fromFilePath path = some uri)
    (hLookup : alookup d.uriToDoc (canonicalizeUri env uri) = some doc)
    (hOpen : smem d.openDocs doc = true)
    (hScan : env.scanEntries = some [path])
    (hRx : d.fileEventRx = some ⟨[DebouncedEvent.Write path], false⟩)
    (hExt : fileExtIsWatched path = true) :
    d.changeFile env path = d ∧
    d.scanFiles env = d ∧
    d.poll env = { d with fileEventRx := some ⟨[], false⟩ } := by
  have key : ∀ x : Docs, x.uriToDoc = d.uriToDoc → x.openDocs = d.openDocs →
      x.changeFile env path = x := by
    intro x h₁ h₂
    cases hA : env.sjisAvailable <;>
      simp [Docs.changeFile, hA, hFp, h₁, h₂, hLookup, hOpen]
  refine ⟨key d rfl rfl, ?_, ?_⟩
  · simp [Docs.scanFiles, hScan, key d rfl rfl]
  · have hclassify : classifyEvents [DebouncedEvent.Write path] = (false, [path], []) := by
      simp [classifyEvents, hExt, sinsert, smem]
    simp only [Docs.poll, hRx, hclassify]
    simp [key { d with fileEventRx := some ⟨[], false⟩ } rfl rfl, smem]

/-- Witness for c8_open_shielded on a store whose one document is open. -/
theorem c8_open_shielded_witness :
    smem c8Store.openDocs 1 = true ∧
    c8Store.changeFile c8Env "/a.hsp" = c8Store ∧
    c8Store.scanFiles c8Env = c8Store :=
  ⟨rfl,
    (c8_open_shielded c8Env c8Store "/a.hsp" "file:///a.hsp" 1 rfl (by decide)
      (by decide) rfl rfl (by decide)).1,
    (c8_open_shielded c8Env c8Store "/a.hsp" "file:///a.hsp" 1 rfl (by decide)
      (by decide) rfl rfl (by decide)).2.1⟩

/-- C10: when canonicalization fails for a URI, canonicalize_uri returns
the input unchanged and the store operations proceed on the uncanonicalized
URI — two distinct such spellings get two distinct DocumentIds — while two
spellings that canonicalize to the same path share one DocumentId (the 1:1
identity-per-canonical-path property holds exactly for the URIs that
canonicalize). -/
theorem c10_canonicalization_fallback (env : FsEnv) (u₁ u₂ u₃ u₄ p : String)
    (h₁ : env.canonResult u₁ = none)
    (h₂ : env.canonResult u₂ = none)
    (hne : u₁ ≠ u₂)
    (h₃ : env.canonResult u₃ = some p)
    (h₄ : env.canonResult u₄ = some p) :
    canonicalizeUri env u₁ = u₁ ∧
    (alookup (Docs.openDoc env (Docs.openDoc env Docs.default u₁ 1 "a") u₂ 1 "b").uriToDoc
        u₁ = some 1 ∧
      alookup (Docs.openDoc env (Docs.openDoc env Docs.default u₁ 1 "a") u₂ 1 "b").uriToDoc
        u₂ = some 2) ∧
    ((Docs.changeDoc env (Docs.openDoc env Docs.default u₃ 1 "a") u₄ 2 "b").uriToDoc =
        [(p, 1)] ∧
      (Docs.changeDoc env (Docs.openDoc env Docs.default u₃ 1 "a") u₄ 2 "b").lastDoc = 1) := by
  constructor
  · simp [canonicalizeUri, h₁]
  constructor
  · constructor <;>
      simp [Docs.openDoc, Docs.doOpenDoc, Docs.resolveUri, Docs.freshDoc, Docs.default,
        canonicalizeUri, h₁, h₂, alookup, ainsert, sinsert, smem, Docs.poll, hne, Ne.symm hne]
  · constructor <;>
      simp [Docs.changeDoc, Docs.openDoc, Docs.doOpenDoc, Docs.doChangeDoc, Docs.resolveUri,
        Docs.freshDoc, Docs.default, canonicalizeUri, h₃, h₄, alookup, ainsert, sinsert,
        smem, Docs.poll]

/-- Witness for c10_canonicalization_fallback with two uncanonicalizable
spellings and two spellings sharing one canonical path. -/
theorem c10_canonicalization_fallback_witness :
    c10Env.canonResult "file:///a" = none ∧
    c10Env.canonResult "file:///x" = some "file:///canon" ∧
    alookup (Docs.openDoc c10Env (Docs.openDoc c10Env Docs.default "file:///a" 1 "a")
        "file:///b" 1 "b").uriToDoc "file:///a" = some 1 ∧
    (Docs.changeDoc c10Env (Docs.openDoc c10Env Docs.default "file:///x" 1 "a")
        "file:///X" 2 "b").uriToDoc = [("file:///canon", 1)] :=
  ⟨by decide, by decide,
    (c10_canonicalization_fallback c10Env "file:///a" "file:///b" "file:///x" "file:///X"
      "file:///canon" (by decide) (by decide) (by decide) (by decide) (by decide)).2.1.1,
    (c10_canonicalization_fallback c10Env "file:///a" "file:///b" "file:///x" "file:///X"
      "file:///canon" (by decide) (by decide) (by decide) (by decide) (by decide)).2.2.1⟩

/-- C3 (counterexample): a watcher batch containing a Remove of a path
followed by a Create of the same path results in a close of that document
— the update is skipped because the path sits in the removed set — so the
net effect is a Closed event and an unloaded document, not a single
update. -/
theorem c3_counterexample :
    (Docs.poll c3Env c3StoreRemoveCreate).docChanges = [DocChange.Closed 1] ∧
    (¬ ∃ text, DocChange.Changed 1 text ∈ (Docs.poll c3Env c3StoreRemoveCreate).docChanges) ∧
    (Docs.poll c3Env c3StoreRemoveCreate).uriToDoc = [] := by
  refine ⟨by decide, ?_, by decide⟩
  rw [show (Docs.poll c3Env c3StoreRemoveCreate).docChanges = [DocChange.Closed 1] from
    by decide]
  rintro ⟨t, ht⟩
  simp at ht

/-- C3 (amended): within one poll batch, a Remove of a path followed by a
Create (or Write) of the same path nets to a close of that path, not an
update — the path lands in both the updated and the removed set and
updates of removed paths are skipped; several rapid writes to the same
path within one batch produce exactly one update for that path. -/
theorem c3_amended (p : String) (hExt : fileExtIsWatched p = true) :
    classifyEvents [DebouncedEvent.Remove p, DebouncedEvent.Create p] = (false, [p], [p]) ∧
    classifyEvents [DebouncedEvent.Write p, DebouncedEvent.Write p, DebouncedEvent.Write p] =
      (false, [p], []) ∧
    (Docs.poll c3Env c3StoreRemoveCreate).docChanges = [DocChange.Closed 1] ∧
    (Docs.poll c3Env c3StoreWrites).docChanges = [DocChange.Changed 1 "A"] := by
  refine ⟨?_, ?_, by decide, by decide⟩ <;>
    simp [classifyEvents, hExt, sinsert, smem]

/-- Witness for c3_amended at the concrete watched path. -/
theorem c3_amended_witness :
    fileExtIsWatched "/a.hsp" = true ∧
    classifyEvents [DebouncedEvent.Remove "/a.hsp", DebouncedEvent.Create "/a.hsp"] =
      (false, ["/a.hsp"], ["/a.hsp"]) :=
  ⟨by decide, (c3_amended "/a.hsp" (by decide)).1⟩

theorem ainsert_of_not_mem {α β : Type} [DecidableEq α] (l : List (α × β)) (k : α) (v : β)
    (h : k ∉ l.map Prod.fst) : ainsert l k v = l ++ [(k, v)] := by
  induction l with
  | nil => rfl
  | cons hd rest ih =>
    obtain ⟨k', v'⟩ := hd
    simp only [List.map_cons, List.mem_cons] at h
    push_neg at h
    simp [ainsert, h.1, ih h.2]

theorem range'_one_concat (n : Nat) : List.range' 1 (n + 1) = List.range' 1 n ++ [n + 1] := by
  rw [List.range'_concat]
  simp [Nat.add_comm]

theorem succ_not_mem_range'_one (n : Nat) : n + 1 ∉ List.range' 1 n := by
  simp only [List.mem_range'_1, not_and, not_lt]
  omega

/-- The walk state is well-formed for document d: the context's document is
d and the id registries hold exactly the ids counted so far. -/
def IdOK (d : Nat) (c : Ctx) : Prop :=
  c.doc = d ∧ CtxIdInv c

theorem IdOK_nonid (d : Nat) (c : Ctx) (syms : List ASymbolData)
    (inc : List (String × Loc)) (σ : ALocalScope) (h : IdOK d c) :
    IdOK d ⟨c.doc, syms, inc, σ, c.modules, c.deffuncs, c.moduleLen, c.deffuncLen⟩ :=
  h

theorem IdOK_deffunc_step (d : Nat) (c : Ctx) (syms : List ASymbolData)
    (inc : List (String × Loc)) (σ : ALocalScope) (data : ADefFuncData) (h : IdOK d c) :
    IdOK d ⟨c.doc, syms, inc, σ, c.modules,
      ainsert c.deffuncs (c.deffuncLen + 1) data, c.moduleLen, c.deffuncLen + 1⟩ := by
  obtain ⟨hdoc, hdf, hmod⟩ := h
  refine ⟨hdoc, ?_, hmod⟩
  show (ainsert c.deffuncs (c.deffuncLen + 1) data).map Prod.fst =
    List.range' 1 (c.deffuncLen + 1)
  have hfresh : c.deffuncLen + 1 ∉ c.deffuncs.map Prod.fst := by
    rw [hdf]; exact succ_not_mem_range'_one _
  rw [ainsert_of_not_mem _ _ _ hfresh, List.map_append, hdf, range'_one_concat]
  rfl

theorem IdOK_module_step (d : Nat) (c : Ctx) (syms : List ASymbolData)
    (inc : List (String × Loc)) (σ : ALocalScope) (data : AModuleData) (h : IdOK d c) :
    IdOK d ⟨c.doc, syms, inc, σ,
      ainsert c.modules ⟨c.doc, c.moduleLen + 1⟩ data, c.deffuncs,
      c.moduleLen + 1, c.deffuncLen⟩ := by
  obtain ⟨hdoc, hdf, hmod⟩ := h
  refine ⟨hdoc, hdf, ?_⟩
  show (ainsert c.modules ⟨c.doc, c.moduleLen + 1⟩ data).map Prod.fst =
    (List.range' 1 (c.moduleLen + 1)).map (fun i => AModule.mk c.doc i)
  have hfresh : (AModule.mk c.doc (c.moduleLen + 1)) ∉ c.modules.map Prod.fst := by
    rw [hmod]
    intro hmem
    obtain ⟨i, hi, heq⟩ := List.mem_map.mp hmem
    have : i = c.moduleLen + 1 := by
      have := congrArg AModule.index heq
      simpa using this
    subst this
    exact succ_not_mem_range'_one _ hi
  rw [ainsert_of_not_mem _ _ _ hfresh, List.map_append, hmod, range'_one_concat,
    List.map_append]
  rfl

theorem IdOK_paramFold (d : Nat) (hash : PToken) (params : List PParam) :
    ∀ c : Ctx, IdOK d c →
      IdOK d (params.foldl
        (fun ctx param =>
          match param.nameOpt with
          | some name =>
            (ctx.addSymbol (ASymbolKind.Param (param.paramTyOpt.map (fun p => p.1)))
              hash name ADefScope.Param).2
          | none => ctx)
        c) := by
  induction params with
  | nil => intro c h; exact h
  | cons p rest ih =>
    intro c h
    simp only [List.foldl_cons]
    apply ih
    cases hn : p.nameOpt with
    | none => simpa [hn] using h
    | some name => simpa [hn, Ctx.addSymbol, addSymbolCore] using h

theorem IdOK_fieldFold (d : Nat) (fields : List PParam) :
    ∀ c : Ctx, IdOK d c →
      IdOK d (fields.foldl
        (fun ctx field =>
          match field.nameOpt with
          | some name =>
            (ctx.addSymbol ASymbolKind.Field name name ADefScope.Local).2
          | none => ctx)
        c) := by
  induction fields with
  | nil => intro c h; exact h
  | cons p rest ih =>
    intro c h
    simp only [List.foldl_cons]
    apply ih
    cases hn : p.nameOpt with
    | none => simpa [hn] using h
    | some name => simpa [hn, Ctx.addSymbol, addSymbolCore] using h

mutual

theorem onStmt_ids (d : Nat) (s : PStmt) (ctx : Ctx) (h : IdOK d ctx) :
    IdOK d (onStmt s ctx) := by
  cases s with
  | Label l =>
    cases hn : l.nameOpt <;>
      simpa [onStmt, hn, Ctx.addSymbol, addSymbolCore] using h
  | Assign => simpa [onStmt] using h
  | Command => simpa [onStmt] using h
  | Invoke => simpa [onStmt] using h
  | Const s =>
    cases hn : s.nameOpt <;>
      simpa [onStmt, hn, Ctx.addSymbol, addSymbolCore] using h
  | Define s =>
    cases hn : s.nameOpt <;>
      simpa [onStmt, hn, Ctx.addSymbol, addSymbolCore] using h
  | Enum s =>
    cases hn : s.nameOpt <;>
      simpa [onStmt, hn, Ctx.addSymbol, addSymbolCore] using h
  | UseLib => simpa [onStmt] using h
  | LibFunc s =>
    cases hn : s.nameOpt with
    | none => simpa [onStmt, hn] using h
    | some name =>
      cases ho : s.onexitOpt with
      | some t => simpa [onStmt, hn, ho] using h
      | none =>
        cases hsig : newSignatureDataForLibFunc s <;>
          simpa [onStmt, hn, ho, hsig, Ctx.addSymbol, addSymbolCore,
            setSignatureOnLast] using h
  | UseCom s =>
    cases hn : s.nameOpt <;>
      simpa [onStmt, hn, Ctx.addSymbol, addSymbolCore] using h
  | ComFunc s =>
    cases hn : s.nameOpt <;>
      simpa [onStmt, hn, Ctx.addSymbol, addSymbolCore] using h
  | RegCmd => simpa [onStmt] using h
  | Cmd s =>
    cases hn : s.nameOpt <;>
      simpa [onStmt, hn, Ctx.addSymbol, addSymbolCore] using h
  | Global => simpa [onStmt] using h
  | Include s =>
    cases hn : s.filePathOpt with
    | none => simpa [onStmt, hn] using h
    | some t =>
      by_cases ht : t.kind = TokenKind.Str <;> simpa [onStmt, hn, ht] using h
  | UnknownPreProc => simpa [onStmt] using h
  | DefFunc hash kind privacyOpt nameOpt onexitOpt params stmts behind =>
    cases nameOpt with
    | none =>
      simp only [onStmt]
      simp only [Bool.false_eq_true, if_false]
      apply IdOK_nonid
      apply onStmts_ids
      apply IdOK_paramFold
      apply IdOK_deffunc_step
      exact h
    | some name =>
      cases onexitOpt with
      | some t =>
        simp only [onStmt, Option.isNone_some]
        simp only [Bool.false_eq_true, if_false]
        apply IdOK_nonid
        apply onStmts_ids
        apply IdOK_paramFold
        apply IdOK_deffunc_step
        exact h
      | none =>
        cases hsig : newSignatureDataForDefFunc kind (some name) params with
        | none =>
          simp only [onStmt, hsig, Option.isNone_none, Ctx.addSymbol, addSymbolCore]
          simp only [if_true]
          apply IdOK_nonid
          apply onStmts_ids
          apply IdOK_paramFold
          apply IdOK_deffunc_step
          exact h
        | some data =>
          simp only [onStmt, hsig, Option.isNone_none, Ctx.addSymbol, addSymbolCore]
          simp only [if_true]
          apply IdOK_nonid
          apply onStmts_ids
          apply IdOK_paramFold
          apply IdOK_deffunc_step
          exact h
  | Module hash keyword nameOpt fields stmts behind =>
    cases nameOpt with
    | none =>
      simp only [onStmt, AModule.new]
      apply IdOK_nonid
      apply onStmts_ids
      apply IdOK_fieldFold
      apply IdOK_module_step
      exact h
    | some name =>
      simp only [onStmt, AModule.new, Ctx.addSymbol, addSymbolCore]
      apply IdOK_nonid
      apply onStmts_ids
      apply IdOK_fieldFold
      apply IdOK_module_step
      exact h

theorem onStmts_ids (d : Nat) (l : List PStmt) (ctx : Ctx) (h : IdOK d ctx) :
    IdOK d (onStmts l ctx) := by
  cases l with
  | nil => simpa [onStmts] using h
  | cons s rest =>
    simp only [onStmts]
    exact onStmts_ids d rest (onStmt s ctx) (onStmt_ids d s ctx h)

end

/-- C4 (amended): module and function ids are consecutive counter values
starting from 1 in every analysis generation (unique within one analysis),
and because analyze_preproc starts from Ctx::default the counters restart
at zero on re-analysis: any two generations that each allocate at least
one function id share id 1, so the id sets overlap instead of being
disjoint (stale ids still cannot leak because the previous generation's
registries are replaced wholesale). -/
theorem c4_amended (doc : Nat) (root₁ root₂ : List PStmt)
    (h₁ : (analyzePreproc doc root₁).deffuncs ≠ [])
    (h₂ : (analyzePreproc doc root₂).deffuncs ≠ []) :
    (∃ n, (analyzePreproc doc root₁).deffuncs.map Prod.fst = List.range' 1 n) ∧
    (∃ m, (analyzePreproc doc root₁).modules.map Prod.fst =
      (List.range' 1 m).map (fun i => AModule.mk doc i)) ∧
    1 ∈ (analyzePreproc doc root₁).deffuncs.map Prod.fst ∧
    1 ∈ (analyzePreproc doc root₂).deffuncs.map Prod.fst ∧
    ¬ List.Disjoint ((analyzePreproc doc root₁).deffuncs.map Prod.fst)
        ((analyzePreproc doc root₂).deffuncs.map Prod.fst) := by
  have base : IdOK doc { Ctx.default with doc := doc } :=
    ⟨rfl, by simp [CtxIdInv, Ctx.default]⟩
  have H₁ := onStmts_ids doc root₁ _ base
  have H₂ := onStmts_ids doc root₂ _ base
  have key₁ : (analyzePreproc doc root₁).deffuncs.map Prod.fst =
      List.range' 1 (onStmts root₁ { Ctx.default with doc := doc }).deffuncLen := H₁.2.1
  have key₂ : (analyzePreproc doc root₂).deffuncs.map Prod.fst =
      List.range' 1 (onStmts root₂ { Ctx.default with doc := doc }).deffuncLen := H₂.2.1
  have mem₁ : 1 ∈ (analyzePreproc doc root₁).deffuncs.map Prod.fst := by
    rw [key₁]
    rw [List.mem_range'_1]
    refine ⟨le_refl 1, ?_⟩
    rcases Nat.eq_zero_or_pos (onStmts root₁ { Ctx.default with doc := doc }).deffuncLen with
      hz | hp
    · exfalso
      apply h₁
      have : (analyzePreproc doc root₁).deffuncs.map Prod.fst = [] := by
        rw [key₁, hz]; rfl
      simpa using this
    · omega
  have mem₂ : 1 ∈ (analyzePreproc doc root₂).deffuncs.map Prod.fst := by
    rw [key₂]
    rw [List.mem_range'_1]
    refine ⟨le_refl 1, ?_⟩
    rcases Nat.eq_zero_or_pos (onStmts root₂ { Ctx.default with doc := doc }).deffuncLen with
      hz | hp
    · exfalso
      apply h₂
      have : (analyzePreproc doc root₂).deffuncs.map Prod.fst = [] := by
        rw [key₂, hz]; rfl
      simpa using this
    · omega
  refine ⟨⟨_, key₁⟩,
    ⟨(onStmts root₁ { Ctx.default with doc := doc }).moduleLen, ?_⟩,
    mem₁, mem₂, fun hd => hd mem₁ mem₂⟩
  have hm : (analyzePreproc doc root₁).modules.map Prod.fst =
      (List.range' 1 (onStmts root₁ { Ctx.default with doc := doc }).moduleLen).map
        (fun i => AModule.mk (onStmts root₁ { Ctx.default with doc := doc }).doc i) := H₁.2.2
  rw [hm, H₁.1]

/-- Witness for c4_amended on two generations of a one-module/one-function
document. -/
theorem c4_amended_witness :
    (analyzePreproc 1 [moduleStmtM, deffuncStmtF]).deffuncs ≠ [] ∧
    1 ∈ (analyzePreproc 1 [moduleStmtM, deffuncStmtF]).deffuncs.map Prod.fst ∧
    1 ∈ (analyzePreproc 1 [moduleStmtM, deffuncStmtG]).deffuncs.map Prod.fst :=
  ⟨by decide,
    (c4_amended 1 [moduleStmtM, deffuncStmtF] [moduleStmtM, deffuncStmtG]
      (by decide) (by decide)).2.2.1,
    (c4_amended 1 [moduleStmtM, deffuncStmtF] [moduleStmtM, deffuncStmtG]
      (by decide) (by decide)).2.2.2.1⟩

/-- C4 (counterexample): analyzing a document and re-analyzing it after a
textual edit (the function renamed from f to g) allocates the function id
1 and the module id (1, 1) both times — the id sets of the two generations
are identical, not disjoint. -/
theorem c4_counterexample :
    (analyzePreproc 1 [moduleStmtM, deffuncStmtF]).deffuncs.map Prod.fst = [1] ∧
    (analyzePreproc 1 [moduleStmtM, deffuncStmtG]).deffuncs.map Prod.fst = [1] ∧
    (analyzePreproc 1 [moduleStmtM, deffuncStmtF]).modules.map Prod.fst = [⟨1, 1⟩] ∧
    (analyzePreproc 1 [moduleStmtM, deffuncStmtG]).modules.map Prod.fst = [⟨1, 1⟩] ∧
    ¬ List.Disjoint ((analyzePreproc 1 [moduleStmtM, deffuncStmtF]).deffuncs.map Prod.fst)
        ((analyzePreproc 1 [moduleStmtM, deffuncStmtG]).deffuncs.map Prod.fst) := by
  refine ⟨by decide, by decide, by decide, by decide, fun h => ?_⟩
  exact h (a := 1)
    (by rw [show (analyzePreproc 1 [moduleStmtM, deffuncStmtF]).deffuncs.map Prod.fst = [1]
          from by decide]; simp)
    (by rw [show (analyzePreproc 1 [moduleStmtM, deffuncStmtG]).deffuncs.map Prod.fst = [1]
          from by decide]; simp)
